import Mathlib

/-!
Verification of the border color resolver of `packages/block-editor/src/hooks/border.js`.

The JavaScript functions are embedded shallowly: JS objects whose field set is
fixed by the code become Lean structures with `Option`-valued fields (a field
that is `none` plays the role of an absent / `undefined` field), and JS string
truthiness (`undefined` and `""` are falsy) is made explicit through `truthy`.
-/

namespace Gutenberg

/-- JS truthiness of an optional string field: `undefined` and the empty
string are falsy, every other string is truthy. -/
def truthy : Option String → Bool
  | none => false
  | some s => !(s == "")

/-- One palette entry, `{ slug, color }`.  Both fields are optional, mirroring
a plain JS record whose fields may be absent. -/
structure ColorEntry where
  slug : Option String
  color : Option String
deriving DecidableEq, Repr

/-- One color origin, `{ name, colors }` (default, theme or user palette). -/
structure ColorOrigin where
  name : Option String
  colors : List ColorEntry
deriving DecidableEq, Repr

/-- The property name handed to `getColorByProperty` (`'slug'` or `'color'`). -/
inductive ColorProp
  | slug
  | color
deriving DecidableEq, Repr

/-- Dynamic property access `color[ property ]` for the two properties used. -/
def ColorEntry.get : ColorEntry → ColorProp → Option String
  | e, .slug => e.slug
  | e, .color => e.color

/-- `getColorByProperty( colors, property, value )`: scan the origins in order
and, inside each origin, its entries in order; the first entry whose
`property` field equals `value` is the result (the JS code realises this with
nested `Array.some` calls capturing `matchedColor`). -/
def getColorByProperty (colors : List ColorOrigin) (property : ColorProp)
    (value : String) : Option ColorEntry :=
  match colors with
  | [] => none
  | origin :: rest =>
    match origin.colors.find? (fun c => c.get property == some value) with
    | some c => some c
    | none => getColorByProperty rest property value

/-- The named branch of `getMultiOriginColor`: when `namedColor` is truthy,
the result of looking it up by slug, otherwise nothing. -/
def namedLookup (colors : List ColorOrigin) (namedColor : Option String) :
    Option ColorEntry :=
  match namedColor with
  | some n => if n == "" then none else getColorByProperty colors .slug n
  | none => none

/-- `getMultiOriginColor( { colors, namedColor, customColor } )`: prefer a
lookup of `namedColor` by slug; otherwise, when `customColor` is truthy, look
it up by literal color value, falling back to the synthetic entry
`{ color: customColor }`; when `customColor` is falsy return
`{ color: undefined }`. -/
def getMultiOriginColor (colors : List ColorOrigin)
    (namedColor customColor : Option String) : ColorEntry :=
  match namedLookup colors namedColor with
  | some colorObject => colorObject
  | none =>
    if !(truthy customColor) then { slug := none, color := none }
    else
      match customColor with
      | some custom =>
        match getColorByProperty colors .color custom with
        | some colorObject => colorObject
        | none => { slug := none, color := some custom }
      | none => { slug := none, color := none }

/-- All palette entries in search order (origins in order, entries in order
within each origin). -/
def allColors (colors : List ColorOrigin) : List ColorEntry :=
  colors.flatMap (fun o => o.colors)

theorem getColorByProperty_eq_find (colors : List ColorOrigin)
    (property : ColorProp) (value : String) :
    getColorByProperty colors property value
      = (allColors colors).find? (fun c => c.get property == some value) := by
  induction colors with
  | nil => rfl
  | cons origin rest ih =>
    simp only [getColorByProperty, allColors, List.flatMap_cons, List.find?_append]
    cases h : origin.colors.find? (fun c => c.get property == some value) with
    | none => simpa [h, allColors] using ih
    | some c => simp [h]

/-- One side of a split border (`{ color, style, width }`), every field
optional. -/
structure SideBorder where
  color : Option String := none
  style : Option String := none
  width : Option String := none
deriving DecidableEq, Repr

/-- The `style.border` object.  A flat border stores `color` / `style` /
`width` directly; a split border stores per-side `SideBorder` sub-objects;
`radius` lives alongside them and is managed by the sibling border-radius
feature. -/
structure Border where
  color : Option String := none
  style : Option String := none
  width : Option String := none
  radius : Option String := none
  top : Option SideBorder := none
  right : Option SideBorder := none
  bottom : Option SideBorder := none
  left : Option SideBorder := none
deriving DecidableEq, Repr

/-- The `sideBorderColors` block attribute: a map from side name to named
color slug; an absent key is `none`. -/
structure SideColors where
  top : Option String := none
  right : Option String := none
  bottom : Option String := none
  left : Option String := none
deriving DecidableEq, Repr

/-- The slice of the `style` block attribute this feature reads and writes. -/
structure Style where
  border : Option Border := none
deriving DecidableEq, Repr

/-- The block attributes used by the border color feature. -/
structure Attributes where
  borderColor : Option String := none
  sideBorderColors : Option SideColors := none
  style : Option Style := none
deriving DecidableEq, Repr

/-- The four border sides, in the order of the `borderSides` array. -/
inductive Side
  | top
  | right
  | bottom
  | left
deriving DecidableEq, Repr

def borderSides : List Side := [.top, .right, .bottom, .left]

/-- Property access `border[ side ]`. -/
def Border.side : Border → Side → Option SideBorder
  | b, .top => b.top
  | b, .right => b.right
  | b, .bottom => b.bottom
  | b, .left => b.left

/-- Property access `sideBorderColors[ side ]`. -/
def SideColors.side : SideColors → Side → Option String
  | c, .top => c.top
  | c, .right => c.right
  | c, .bottom => c.bottom
  | c, .left => c.left

/-- One entry of the `Object.entries( sideBorderColors ).forEach` loop in
`getBorderObject`: resolve the side's named color; when a truthy color comes
back, overlay it onto the stored side sub-object (`{ ...stored, color }`),
otherwise leave the stored side untouched.  An absent key (`none`) leaves the
side untouched as well, since the loop never visits it. -/
def hydrateSide (colors : List ColorOrigin) (stored : Option SideBorder)
    (namedColor : Option String) : Option SideBorder :=
  match namedColor with
  | none => stored
  | some n =>
    let c := (getMultiOriginColor colors (some n) none).color
    if truthy c then some { (stored.getD {}) with color := c } else stored

/-- `getBorderObject( attributes, colors )`: hydrate the stored
`style.border` object with the literal values of the named colors selected
via `borderColor` (flat) or `sideBorderColors` (split). -/
def getBorderObject (attributes : Attributes) (colors : List ColorOrigin) :
    Option Border :=
  let borderStyles := attributes.style.bind (fun s => s.border)
  if truthy attributes.borderColor then
    let c := (getMultiOriginColor colors attributes.borderColor none).color
    if truthy c then some { (borderStyles.getD {}) with color := c }
    else borderStyles
  else
    match attributes.sideBorderColors with
    | some sideBorderColors =>
      let base := borderStyles.getD {}
      some { base with
        top := hydrateSide colors base.top sideBorderColors.top,
        right := hydrateSide colors base.right sideBorderColors.right,
        bottom := hydrateSide colors base.bottom sideBorderColors.bottom,
        left := hydrateSide colors base.left sideBorderColors.left }
    | none => borderStyles

/-- Modelled from the spec (`__experimentalHasSplitBorders`, imported from the
components package, is not part of the sources): a border value is in split
form exactly when it carries an entry for at least one of the four sides. -/
def hasSplitBorders (border : Border) : Bool :=
  border.top.isSome || border.right.isSome || border.bottom.isSome ||
    border.left.isSome

/-- Whether a side sub-object has no defined member, i.e. cleans away. -/
def SideBorder.isEmptyObj (b : SideBorder) : Bool :=
  b.color.isNone && b.style.isNone && b.width.isNone

/-- Modelled from the spec (`cleanEmptyObject` of `hooks/utils.js` is not part
of the sources): recursively drop empty or undefined members, returning
`undefined` instead of an empty object — here at the type of a side
sub-object. -/
def cleanSideBorder : Option SideBorder → Option SideBorder
  | none => none
  | some b => if b.isEmptyObj then none else some b

/-- A border object all of whose members are undefined. -/
def Border.isEmptyObj (b : Border) : Bool :=
  b.color.isNone && b.style.isNone && b.width.isNone && b.radius.isNone &&
    b.top.isNone && b.right.isNone && b.bottom.isNone && b.left.isNone

/-- The recursive step of cleaning a border object: clean its four side
sub-objects, keeping the scalar members. -/
def cleanBorderSides (b : Border) : Border :=
  { b with
    top := cleanSideBorder b.top, right := cleanSideBorder b.right,
    bottom := cleanSideBorder b.bottom, left := cleanSideBorder b.left }

/-- Modelled from the spec (`cleanEmptyObject` of `hooks/utils.js` is not part
of the sources): recursively drop empty or undefined members, returning
`undefined` instead of an empty object — here at the type of a
`style.border` object. -/
def cleanEmptyObject (b : Border) : Option Border :=
  if (cleanBorderSides b).isEmptyObj then none else some (cleanBorderSides b)

/-- Modelled from the spec (`cleanEmptyObject` of `hooks/utils.js` is not part
of the sources): recursively drop empty or undefined members, returning
`undefined` instead of an empty object — here at the type of the `style`
attribute. -/
def cleanEmptyObjectStyle (s : Style) : Option Style :=
  match s.border with
  | none => none
  | some b =>
    match cleanEmptyObject b with
    | none => none
    | some b' => some { border := some b' }

/-- The attribute updates passed to `setAttributes` by `onBorderChange`. -/
structure BorderChangeResult where
  style : Option Style
  borderColor : Option String
  sideBorderColors : Option SideColors
deriving DecidableEq, Repr

/-- The body of the `borderSides.forEach` loop of `onBorderChange` for one
side.  The loop only writes the visited side's entries of `newBorderStyles`
and `newSideBorderColors`, so the four iterations are independent; this
function returns the pair (stored side sub-object, recorded named slug) the
iteration leaves behind, starting from the copy `{ ...newBorder[ side ] }`. -/
def processSide (colors : List ColorOrigin) (sb : Option SideBorder) :
    Option SideBorder × Option String :=
  if truthy (sb.bind (fun s => s.color)) then
    let colorObject := getMultiOriginColor colors none (sb.bind (fun s => s.color))
    if truthy colorObject.slug then
      (some { (sb.getD {}) with color := none }, colorObject.slug)
    else (some (sb.getD {}), none)
  else (some (sb.getD {}), none)

/-- `onBorderChange( newBorder )` as closed over `style` (the block's current
`style` attribute) and `colors`: extract named colors from the new border
value into the `borderColor` / `sideBorderColors` attributes, keep the prior
border radius, and clean the resulting style object. -/
def onBorderChange (colors : List ColorOrigin) (style : Option Style)
    (newBorder : Border) : BorderChangeResult :=
  let priorRadius := (style.bind (fun s => s.border)).bind (fun b => b.radius)
  if hasSplitBorders newBorder then
    let pTop := processSide colors newBorder.top
    let pRight := processSide colors newBorder.right
    let pBottom := processSide colors newBorder.bottom
    let pLeft := processSide colors newBorder.left
    let newBorderStyles : Border :=
      { radius := priorRadius, top := pTop.1, right := pRight.1,
        bottom := pBottom.1, left := pLeft.1 }
    let newSideBorderColors : SideColors :=
      { top := pTop.2, right := pRight.2, bottom := pBottom.2,
        left := pLeft.2 }
    { style := cleanEmptyObjectStyle { border := some newBorderStyles },
      borderColor := none,
      sideBorderColors := some newSideBorderColors }
  else
    let radiusMerged :=
      match newBorder.radius with
      | some r => some r
      | none => priorRadius
    if truthy newBorder.color then
      let colorObject := getMultiOriginColor colors none newBorder.color
      if truthy colorObject.slug then
        { style := cleanEmptyObjectStyle
            { border := some { newBorder with color := none, radius := radiusMerged } },
          borderColor := colorObject.slug,
          sideBorderColors := none }
      else
        { style := cleanEmptyObjectStyle
            { border := some { newBorder with radius := radiusMerged } },
          borderColor := none,
          sideBorderColors := none }
    else
      { style := cleanEmptyObjectStyle
          { border := some { newBorder with radius := radiusMerged } },
        borderColor := none,
        sideBorderColors := none }

/-- `resetBorder`: clear the named color attributes and reduce the stored
border object to its radius (cleaned). -/
def resetBorder (attributes : Attributes) : Attributes :=
  let style := attributes.style
  { borderColor := none,
    sideBorderColors := none,
    style := some { border := (cleanEmptyObject
      { radius := (style.bind (fun s => s.border)).bind (fun b => b.radius) }) } }

/-- Modelled from the spec (`__experimentalIsDefinedBorder`, imported from the
components package, is not part of the sources): whether the border object
holds any defined value, looking through the four sides when the border is in
split form. -/
def isDefinedBorder : Option Border → Bool
  | none => false
  | some b =>
    if hasSplitBorders b then
      !((b.top.getD {}).isEmptyObj && (b.right.getD {}).isEmptyObj &&
        (b.bottom.getD {}).isEmptyObj && (b.left.getD {}).isEmptyObj)
    else
      !(b.color.isNone && b.style.isNone && b.width.isNone && b.radius.isNone)

/-- `hasBorderValue( props )`: a defined stored border, a truthy `borderColor`
string, or a defined (possibly empty) `sideBorderColors` object counts as a
border value. -/
def hasBorderValue (attributes : Attributes) : Bool :=
  isDefinedBorder (attributes.style.bind (fun s => s.border)) ||
    truthy attributes.borderColor || attributes.sideBorderColors.isSome

/-- Modelled from the spec (`getColorClassName` of the colors component is
not part of the sources): the palette class token `has-{slug}-{context}`,
produced only when both the context name and the slug are truthy. -/
def getColorClassName (colorContextName : String) (colorSlug : Option String) :
    Option String :=
  if colorContextName == "" || !(truthy colorSlug) then none
  else some ("has-" ++ colorSlug.getD "" ++ "-" ++ colorContextName)

/-- The class names paired with a true flag, in order. -/
def activeTokens (classes : List (String × Bool)) : List String :=
  (classes.filter (fun c => c.2)).map (fun c => c.1)

/-- Modelled from the spec (the external `classnames` helper): keep the class
names paired with a true flag, in order, and join them with single spaces. -/
def classnames (classes : List (String × Bool)) : String :=
  String.intercalate " " (activeTokens classes)

/-- The name of a side as it appears in class tokens. -/
def Side.name : Side → String
  | .top => "top"
  | .right => "right"
  | .bottom => "bottom"
  | .left => "left"

/-- `getSideBorderClasses( attributes )`: for each side, the fixed token
`has-border-{side}-color` flagged by a named slug or a stored literal color
for that side, followed by the palette token for that side's slug when it is
set. -/
def getSideBorderClasses (attributes : Attributes) : List (String × Bool) :=
  borderSides.flatMap (fun side =>
    let color := attributes.sideBorderColors.bind (fun c => c.side side)
    let hasColor := truthy color ||
      truthy (((attributes.style.bind (fun s => s.border)).bind
        (fun b => b.side side)).bind (fun sb => sb.color))
    let baseClassName := "border-" ++ side.name ++ "-color"
    ("has-" ++ baseClassName, hasColor) ::
      (match getColorClassName baseClassName color with
       | some colorClass => [(colorClass, true)]
       | none => []))

/-- `getBorderClasses( attributes )`: the flat tokens followed by the
side tokens, joined by `classnames`. -/
def getBorderClasses (attributes : Attributes) : String :=
  let borderColorClass := getColorClassName "border-color" attributes.borderColor
  classnames
    (("has-border-color",
        truthy attributes.borderColor ||
          truthy ((attributes.style.bind (fun s => s.border)).bind
            (fun b => b.color))) ::
      (match borderColorClass with
       | some c => [(c, true)]
       | none => []) ++ getSideBorderClasses attributes)

/-- The five color values a border object renders with: the flat color and
the four per-side colors. -/
def effectiveColors (b : Option Border) : List (Option String) :=
  [b.bind (fun x => x.color),
   (b.bind (fun x => x.top)).bind (fun s => s.color),
   (b.bind (fun x => x.right)).bind (fun s => s.color),
   (b.bind (fun x => x.bottom)).bind (fun s => s.color),
   (b.bind (fun x => x.left)).bind (fun s => s.color)]

/-- Hydrate, run the hydrated border through `onBorderChange`, take the
returned attribute updates as the new attributes, and hydrate again. -/
def roundTrip (colors : List ColorOrigin) (attributes : Attributes) :
    Option Border :=
  let r := onBorderChange colors attributes.style
    ((getBorderObject attributes colors).getD {})
  getBorderObject
    { borderColor := r.borderColor, sideBorderColors := r.sideBorderColors,
      style := r.style } colors

/-- Any two palette entries carrying the same slug agree on their color
(slugs are allowed to repeat across origins, but then denote one color). -/
def slugDeterminesColor (colors : List ColorOrigin) : Prop :=
  ∀ e₁ ∈ allColors colors, ∀ e₂ ∈ allColors colors, ∀ s : String,
    e₁.slug = some s → e₂.slug = some s → e₁.color = e₂.color

theorem allColors_append (l₁ l₂ : List ColorOrigin) :
    allColors (l₁ ++ l₂) = allColors l₁ ++ allColors l₂ := by
  simp [allColors]

theorem allColors_cons (o : ColorOrigin) (l : List ColorOrigin) :
    allColors (o :: l) = o.colors ++ allColors l := by
  simp [allColors]

/-- C1 (amended with the non-emptiness the counterexample forces): for every
non-empty `namedSlug` occurring as the slug of some entry, `resolveColor`
returns the entry with that slug from the first origin containing it, taking
the first matching entry by position within that origin, slug and literal
color preserved, whatever `customColor` is. -/
theorem resolveColor_named_first (pre post : List ColorOrigin)
    (o : ColorOrigin) (cpre cpost : List ColorEntry) (e : ColorEntry)
    (ns : String) (cc : Option String) (hns : ns ≠ "")
    (ho : o.colors = cpre ++ e :: cpost) (he : e.slug = some ns)
    (hpre : ∀ o' ∈ pre, ∀ e' ∈ o'.colors, e'.slug ≠ some ns)
    (hcpre : ∀ e' ∈ cpre, e'.slug ≠ some ns) :
    getMultiOriginColor (pre ++ o :: post) (some ns) cc = e := by
  have hfind : getColorByProperty (pre ++ o :: post) .slug ns = some e := by
    rw [getColorByProperty_eq_find, allColors_append, allColors_cons,
      List.find?_append]
    have h1 : (allColors pre).find? (fun c => c.get .slug == some ns) = none := by
      rw [List.find?_eq_none]
      intro x hx
      rcases List.mem_flatMap.mp hx with ⟨o', ho', hx'⟩
      simp only [ColorEntry.get, beq_iff_eq]
      exact hpre o' ho' x hx'
    rw [h1]
    rw [List.find?_append, ho, List.find?_append]
    have h2 : cpre.find? (fun c => c.get .slug == some ns) = none := by
      rw [List.find?_eq_none]
      intro x hx
      simp only [ColorEntry.get, beq_iff_eq]
      exact hcpre x hx
    rw [h2]
    rw [List.find?_cons_of_pos _ (by simp [ColorEntry.get, he])]
    rfl
  simp [getMultiOriginColor, namedLookup, hns, hfind]

theorem resolveColor_named_first_witness :
    getMultiOriginColor
      [⟨some "default", [⟨some "base", some "#000"⟩]⟩,
        ⟨some "theme", [⟨some "other", some "#222"⟩,
          ⟨some "primary", some "#111111"⟩]⟩]
      (some "primary") (some "#999") = ⟨some "primary", some "#111111"⟩ :=
  resolveColor_named_first
    [⟨some "default", [⟨some "base", some "#000"⟩]⟩] []
    ⟨some "theme", [⟨some "other", some "#222"⟩,
      ⟨some "primary", some "#111111"⟩]⟩
    [⟨some "other", some "#222"⟩] [] ⟨some "primary", some "#111111"⟩
    "primary" (some "#999") (by decide) rfl rfl (by decide) (by decide)

/-- C1 counterexample: the empty string occurs as the slug of an entry, yet
`resolveColor` does not return that entry (an empty `namedColor` is falsy, so
the slug lookup is skipped and `{ color: undefined }` comes back). -/
theorem resolveColor_named_empty_counterexample :
    (⟨some "", some "#abc"⟩ : ColorEntry) ∈
        allColors [⟨some "theme", [⟨some "", some "#abc"⟩]⟩] ∧
      getMultiOriginColor [⟨some "theme", [⟨some "", some "#abc"⟩]⟩]
          (some "") none ≠ ⟨some "", some "#abc"⟩ := by
  decide

/-- C2 (amended: an empty-string `literalColor` is treated as absent, so the
synthetic-entry clause only applies to non-empty literals): when the named
lookup cannot succeed, an absent or empty literal yields `{color: undefined}`;
a non-empty literal matching some entry's color yields the first such entry
(slug recovered); a non-empty literal matching no entry yields the synthetic
entry `{color: literalColor, slug: undefined}`. -/
theorem resolveColor_custom (colors : List ColorOrigin) (ns : Option String)
    (hns : ∀ s, ns = some s → s ≠ "" → ∀ e ∈ allColors colors,
      e.slug ≠ some s) :
    (getMultiOriginColor colors ns none = ⟨none, none⟩)
    ∧ (getMultiOriginColor colors ns (some "") = ⟨none, none⟩)
    ∧ (∀ c : String, c ≠ "" → ∀ e : ColorEntry,
        (allColors colors).find? (fun x => x.color == some c) = some e →
        getMultiOriginColor colors ns (some c) = e)
    ∧ (∀ c : String, c ≠ "" → (∀ e ∈ allColors colors, e.color ≠ some c) →
        getMultiOriginColor colors ns (some c) = ⟨none, some c⟩) := by
  have hnamed : namedLookup colors ns = none := by
    cases ns with
    | none => rfl
    | some n =>
      by_cases h : n = ""
      · simp [namedLookup, h]
      · simp only [namedLookup]
        rw [if_neg (by simpa using h), getColorByProperty_eq_find,
          List.find?_eq_none]
        intro x hx
        simp only [ColorEntry.get, beq_iff_eq]
        exact hns n rfl h x hx
  refine ⟨?_, ?_, ?_, ?_⟩
  · simp [getMultiOriginColor, hnamed, truthy]
  · simp [getMultiOriginColor, hnamed, truthy]
  · intro c hc e hfind
    have hprop : getColorByProperty colors .color c = some e := by
      rw [getColorByProperty_eq_find]
      simpa [ColorEntry.get] using hfind
    simp [getMultiOriginColor, hnamed, truthy, hc, hprop]
  · intro c hc hnone
    have hprop : getColorByProperty colors .color c = none := by
      rw [getColorByProperty_eq_find, List.find?_eq_none]
      intro x hx
      simp only [ColorEntry.get, beq_iff_eq]
      exact hnone x hx
    simp [getMultiOriginColor, hnamed, truthy, hc, hprop]

theorem resolveColor_custom_witness :
    (getMultiOriginColor [⟨some "theme", [⟨some "primary", some "#111111"⟩]⟩]
        none none = ⟨none, none⟩)
    ∧ (getMultiOriginColor [⟨some "theme", [⟨some "primary", some "#111111"⟩]⟩]
        none (some "#111111") = ⟨some "primary", some "#111111"⟩)
    ∧ (getMultiOriginColor [⟨some "theme", [⟨some "primary", some "#111111"⟩]⟩]
        none (some "#999") = ⟨none, some "#999"⟩) := by
  have h := resolveColor_custom
    [⟨some "theme", [⟨some "primary", some "#111111"⟩]⟩] none
    (by intro s hs; cases hs)
  exact ⟨h.1, h.2.2.1 "#111111" (by decide) _ (by decide),
    h.2.2.2 "#999" (by decide) (by decide)⟩

/-- C2 counterexample: the empty string is a `literalColor` present in no
origin (there are none), yet `resolveColor` returns `{ color: undefined }`
rather than the synthetic entry `{ color: "", slug: undefined }` the claim
requires, because an empty `customColor` is falsy. -/
theorem resolveColor_custom_empty_counterexample :
    getMultiOriginColor [] none (some "") = ⟨none, none⟩ ∧
      (⟨none, none⟩ : ColorEntry) ≠ ⟨none, some ""⟩ := by
  decide

/-- The attributes of the C3 counterexample: `borderColor` set to the empty
string next to a per-side named color. -/
def hydrateCexAttributes : Attributes :=
  { borderColor := some "",
    sideBorderColors := some { top := some "primary" } }

/-- The origins of the C3 counterexample. -/
def hydrateCexColors : List ColorOrigin :=
  [⟨some "theme", [⟨some "primary", some "#111111"⟩]⟩]

/-- C3 counterexample: `attributes.borderColor` is set (to the empty string)
and its resolution yields no color, but hydration does not pass the stored
`style.border` through unmodified — the falsy `borderColor` sends the code
into the `sideBorderColors` branch instead, which overlays the top color. -/
theorem hydrate_set_borderColor_counterexample :
    hydrateCexAttributes.borderColor ≠ none ∧
      (getMultiOriginColor hydrateCexColors
        hydrateCexAttributes.borderColor none).color = none ∧
      getBorderObject hydrateCexAttributes hydrateCexColors
        ≠ hydrateCexAttributes.style.bind (fun s => s.border) := by
  decide

/-- C3 (amended: a named color field counts as set only when it is a truthy,
non-empty string, and only a truthy resolved color is overlaid): with a truthy
`borderColor`, a truthy resolved color is overlaid onto the stored border's
`color` field, all other fields passing through, and a failed resolution
passes the stored border through unmodified; otherwise with `sideBorderColors`
set, each listed side is resolved independently and overlaid onto that side's
stored sub-object, unlisted sides and the flat fields passing through; with
neither set, the stored border is returned verbatim. -/
theorem getD_empty_color (o : Option Border) :
    (o.getD {}).color = o.bind (fun b => b.color) := by
  cases o <;> rfl

theorem getD_empty_style (o : Option Border) :
    (o.getD {}).style = o.bind (fun b => b.style) := by
  cases o <;> rfl

theorem getD_empty_width (o : Option Border) :
    (o.getD {}).width = o.bind (fun b => b.width) := by
  cases o <;> rfl

theorem getD_empty_radius (o : Option Border) :
    (o.getD {}).radius = o.bind (fun b => b.radius) := by
  cases o <;> rfl

theorem getD_empty_side (o : Option Border) (s : Side) :
    (o.getD {}).side s = o.bind (fun b => b.side s) := by
  cases o <;> cases s <;> rfl

theorem hydrate_cases (colors : List ColorOrigin) (a : Attributes) :
    (truthy a.borderColor = true →
      (truthy (getMultiOriginColor colors a.borderColor none).color = true →
        getBorderObject a colors =
          some { ((a.style.bind (fun s => s.border)).getD {}) with
            color := (getMultiOriginColor colors a.borderColor none).color })
      ∧ (truthy (getMultiOriginColor colors a.borderColor none).color = false →
        getBorderObject a colors = a.style.bind (fun s => s.border)))
    ∧ (truthy a.borderColor = false → ∀ sbc, a.sideBorderColors = some sbc →
      ((getBorderObject a colors).bind (fun b => b.color) =
          (a.style.bind (fun s => s.border)).bind (fun b => b.color))
      ∧ ((getBorderObject a colors).bind (fun b => b.style) =
          (a.style.bind (fun s => s.border)).bind (fun b => b.style))
      ∧ ((getBorderObject a colors).bind (fun b => b.width) =
          (a.style.bind (fun s => s.border)).bind (fun b => b.width))
      ∧ ((getBorderObject a colors).bind (fun b => b.radius) =
          (a.style.bind (fun s => s.border)).bind (fun b => b.radius))
      ∧ (∀ side : Side, (getBorderObject a colors).bind (fun b => b.side side)
          = match sbc.side side with
            | none => (a.style.bind (fun s => s.border)).bind
                (fun b => b.side side)
            | some n =>
              if truthy (getMultiOriginColor colors (some n) none).color then
                some { ((((a.style.bind (fun s => s.border)).getD {}).side
                    side).getD {}) with
                  color := (getMultiOriginColor colors (some n) none).color }
              else (a.style.bind (fun s => s.border)).bind
                (fun b => b.side side)))
    ∧ (truthy a.borderColor = false → a.sideBorderColors = none →
      getBorderObject a colors = a.style.bind (fun s => s.border)) := by
  refine ⟨fun hbc => ⟨fun hc => ?_, fun hc => ?_⟩,
    fun hbc sbc hsbc => ?_, fun hbc hsbc => ?_⟩
  · simp [getBorderObject, hbc, hc]
  · simp [getBorderObject, hbc, hc]
  · refine ⟨?_, ?_, ?_, ?_, ?_⟩
    · simp [getBorderObject, hbc, hsbc, getD_empty_color]
    · simp [getBorderObject, hbc, hsbc, getD_empty_style]
    · simp [getBorderObject, hbc, hsbc, getD_empty_width]
    · simp [getBorderObject, hbc, hsbc, getD_empty_radius]
    · intro side
      have hR : (getBorderObject a colors).bind (fun b => b.side side)
          = hydrateSide colors
              (((a.style.bind (fun s => s.border)).getD {}).side side)
              (sbc.side side) := by
        cases side <;>
          simp [getBorderObject, hbc, hsbc, Border.side, SideColors.side]
      rw [hR, getD_empty_side]
      cases h : sbc.side side <;> simp [hydrateSide]
  · simp [getBorderObject, hbc, hsbc]

/-- The attributes of the C3 witness: a flat named border color over a stored
width. -/
def hydrateWitnessAttributes : Attributes :=
  { borderColor := some "primary",
    style := some { border := some { width := some "2px" } } }

theorem hydrate_cases_witness :
    getBorderObject hydrateWitnessAttributes
        [⟨some "theme", [⟨some "primary", some "#111111"⟩]⟩]
      = some { color := some "#111111", width := some "2px" } := by
  have h := ((hydrate_cases
      [⟨some "theme", [⟨some "primary", some "#111111"⟩]⟩]
      hydrateWitnessAttributes).1 (by decide)).1 (by decide)
  exact h.trans (by decide)

theorem getD_empty_sb_color (o : Option SideBorder) :
    (o.getD {}).color = o.bind (fun s => s.color) := by
  cases o <;> rfl

/-- Dropping an empty side sub-object does not change its color projection. -/
theorem cleanSideBorder_bind_color (o : Option SideBorder) :
    (cleanSideBorder o).bind (fun s => s.color) = o.bind (fun s => s.color) := by
  cases o with
  | none => rfl
  | some b =>
    by_cases h : b.isEmptyObj = true
    · have hc : b.color = none := by
        have := h
        simp only [SideBorder.isEmptyObj, Bool.and_eq_true,
          Option.isNone_iff_eq_none] at this
        exact this.1.1
      simp [cleanSideBorder, h, hc]
    · simp [cleanSideBorder, h]

/-- Unpacked form of `Border.isEmptyObj` after cleaning the sides. -/
theorem cleanBorderSides_isEmptyObj (B : Border)
    (h : (cleanBorderSides B).isEmptyObj = true) :
    B.color = none ∧ B.style = none ∧ B.width = none ∧ B.radius = none ∧
      cleanSideBorder B.top = none ∧ cleanSideBorder B.right = none ∧
      cleanSideBorder B.bottom = none ∧ cleanSideBorder B.left = none := by
  simp only [Border.isEmptyObj, cleanBorderSides, Bool.and_eq_true,
    Option.isNone_iff_eq_none] at h
  exact ⟨h.1.1.1.1.1.1.1, h.1.1.1.1.1.1.2, h.1.1.1.1.1.2, h.1.1.1.1.2,
    h.1.1.1.2, h.1.1.2, h.1.2, h.2⟩

theorem cleanEmptyObject_color (B : Border) :
    (cleanEmptyObject B).bind (fun b => b.color) = B.color := by
  by_cases h : (cleanBorderSides B).isEmptyObj = true
  · rw [cleanEmptyObject, if_pos h]
    simp [(cleanBorderSides_isEmptyObj B h).1]
  · rw [cleanEmptyObject, if_neg h]
    simp [cleanBorderSides]

theorem cleanEmptyObject_radius (B : Border) :
    (cleanEmptyObject B).bind (fun b => b.radius) = B.radius := by
  by_cases h : (cleanBorderSides B).isEmptyObj = true
  · rw [cleanEmptyObject, if_pos h]
    simp [(cleanBorderSides_isEmptyObj B h).2.2.2.1]
  · rw [cleanEmptyObject, if_neg h]
    simp [cleanBorderSides]

theorem cleanEmptyObject_side (B : Border) (s : Side) :
    (cleanEmptyObject B).bind (fun b => b.side s) = cleanSideBorder (B.side s) := by
  by_cases h : (cleanBorderSides B).isEmptyObj = true
  · obtain ⟨-, -, -, -, ht, hr, hb, hl⟩ := cleanBorderSides_isEmptyObj B h
    rw [cleanEmptyObject, if_pos h]
    cases s <;> simp [Border.side, ht, hr, hb, hl]
  · rw [cleanEmptyObject, if_neg h]
    cases s <;> simp [cleanBorderSides, Border.side]

theorem cleanStyle_border (B : Border) :
    (cleanEmptyObjectStyle { border := some B }).bind (fun st => st.border)
      = cleanEmptyObject B := by
  cases h : cleanEmptyObject B <;> simp [cleanEmptyObjectStyle, h]

theorem cleanEmptyObject_top (B : Border) :
    (cleanEmptyObject B).bind (fun b => b.top) = cleanSideBorder B.top := by
  simpa [Border.side] using cleanEmptyObject_side B .top

theorem cleanEmptyObject_right (B : Border) :
    (cleanEmptyObject B).bind (fun b => b.right) = cleanSideBorder B.right := by
  simpa [Border.side] using cleanEmptyObject_side B .right

theorem cleanEmptyObject_bottom (B : Border) :
    (cleanEmptyObject B).bind (fun b => b.bottom) = cleanSideBorder B.bottom := by
  simpa [Border.side] using cleanEmptyObject_side B .bottom

theorem cleanEmptyObject_left (B : Border) :
    (cleanEmptyObject B).bind (fun b => b.left) = cleanSideBorder B.left := by
  simpa [Border.side] using cleanEmptyObject_side B .left

theorem onBorderChange_split_sideColors (colors : List ColorOrigin)
    (st : Option Style) (nb : Border) (h : hasSplitBorders nb = true)
    (s : Side) :
    (onBorderChange colors st nb).sideBorderColors.bind (fun m => m.side s)
      = (processSide colors (nb.side s)).2 := by
  cases s <;> simp [onBorderChange, h, SideColors.side, Border.side]

theorem onBorderChange_split_styleSide (colors : List ColorOrigin)
    (st : Option Style) (nb : Border) (h : hasSplitBorders nb = true)
    (s : Side) :
    ((onBorderChange colors st nb).style.bind (fun x => x.border)).bind
        (fun b => b.side s)
      = cleanSideBorder ((processSide colors (nb.side s)).1) := by
  cases s <;>
    simp [onBorderChange, h, cleanStyle_border, Border.side,
      cleanEmptyObject_top, cleanEmptyObject_right, cleanEmptyObject_bottom,
      cleanEmptyObject_left]

/-- The two outcomes of one `borderSides.forEach` iteration: a truthy side
color that resolves to an entry with a truthy slug is moved into the named
map and blanked in the style object; anything else leaves the copied side
untouched and records nothing. -/
theorem processSide_spec (colors : List ColorOrigin) (sb : Option SideBorder) :
    (truthy (sb.bind (fun s => s.color)) = true →
      truthy (getMultiOriginColor colors none
          (sb.bind (fun s => s.color))).slug = true →
      processSide colors sb
        = (some { (sb.getD {}) with color := none },
            (getMultiOriginColor colors none
              (sb.bind (fun s => s.color))).slug))
    ∧ ((truthy (sb.bind (fun s => s.color)) = false ∨
        truthy (getMultiOriginColor colors none
          (sb.bind (fun s => s.color))).slug = false) →
      processSide colors sb = (some (sb.getD {}), none)) := by
  constructor
  · intro hc hs
    simp [processSide, hc, hs]
  · rintro (hc | hs)
    · simp [processSide, hc]
    · by_cases hc : truthy (sb.bind (fun s => s.color)) = true
      · simp [processSide, hc, hs]
      · simp [processSide, hc]

/-- C4 (amended: "color is set" means set to a truthy, non-empty string, and
a slug is recorded only when the matched entry's slug is itself truthy): in
the split case, each side whose color is truthy and whose literal-match
search yields an entry with a truthy slug has that slug recorded in the
side-color map and its stored literal blanked; any other side is omitted from
the map and keeps its literal color as stored.  In the flat case the same
logic is applied once to the flat color field, writing the scalar
`borderColor` output. -/
theorem onEdit_named_extraction (colors : List ColorOrigin) (st : Option Style)
    (nb : Border) :
    (hasSplitBorders nb = true → ∀ side : Side,
      ((truthy ((nb.side side).bind (fun s => s.color)) = true ∧
          truthy (getMultiOriginColor colors none
            ((nb.side side).bind (fun s => s.color))).slug = true) →
        (onBorderChange colors st nb).sideBorderColors.bind
            (fun m => m.side side)
          = (getMultiOriginColor colors none
              ((nb.side side).bind (fun s => s.color))).slug ∧
        (((onBorderChange colors st nb).style.bind (fun x => x.border)).bind
            (fun b => b.side side)).bind (fun sb => sb.color) = none)
      ∧ ((truthy ((nb.side side).bind (fun s => s.color)) = false ∨
          truthy (getMultiOriginColor colors none
            ((nb.side side).bind (fun s => s.color))).slug = false) →
        (onBorderChange colors st nb).sideBorderColors.bind
            (fun m => m.side side) = none ∧
        (((onBorderChange colors st nb).style.bind (fun x => x.border)).bind
            (fun b => b.side side)).bind (fun sb => sb.color)
          = (nb.side side).bind (fun s => s.color)))
    ∧ (hasSplitBorders nb = false →
      ((truthy nb.color = true ∧
          truthy (getMultiOriginColor colors none nb.color).slug = true) →
        (onBorderChange colors st nb).borderColor
          = (getMultiOriginColor colors none nb.color).slug ∧
        ((onBorderChange colors st nb).style.bind (fun x => x.border)).bind
          (fun b => b.color) = none)
      ∧ ((truthy nb.color = false ∨
          truthy (getMultiOriginColor colors none nb.color).slug = false) →
        (onBorderChange colors st nb).borderColor = none ∧
        ((onBorderChange colors st nb).style.bind (fun x => x.border)).bind
          (fun b => b.color) = nb.color)) := by
  constructor
  · intro hsplit side
    constructor
    · rintro ⟨hc, hs⟩
      rw [onBorderChange_split_sideColors colors st nb hsplit side,
        onBorderChange_split_styleSide colors st nb hsplit side,
        (processSide_spec colors (nb.side side)).1 hc hs]
      exact ⟨rfl, by simp [cleanSideBorder_bind_color]⟩
    · intro hor
      rw [onBorderChange_split_sideColors colors st nb hsplit side,
        onBorderChange_split_styleSide colors st nb hsplit side,
        (processSide_spec colors (nb.side side)).2 hor]
      exact ⟨rfl, by simp [cleanSideBorder_bind_color, getD_empty_sb_color]⟩
  · intro hsplit
    constructor
    · rintro ⟨hc, hs⟩
      constructor
      · simp [onBorderChange, hsplit, hc, hs]
      · simp [onBorderChange, hsplit, hc, hs, cleanStyle_border,
          cleanEmptyObject_color]
    · rintro (hc | hs)
      · constructor
        · simp [onBorderChange, hsplit, hc]
        · simp [onBorderChange, hsplit, hc, cleanStyle_border,
            cleanEmptyObject_color]
      · by_cases hc : truthy nb.color = true
        · constructor
          · simp [onBorderChange, hsplit, hc, hs]
          · simp [onBorderChange, hsplit, hc, hs, cleanStyle_border,
              cleanEmptyObject_color]
        · constructor
          · simp [onBorderChange, hsplit, hc]
          · simp [onBorderChange, hsplit, hc, cleanStyle_border,
              cleanEmptyObject_color]

/-- The origins of the C4 counterexample: a palette entry whose slug is the
empty string. -/
def onEditCexColors : List ColorOrigin :=
  [⟨some "theme", [⟨some "", some "#abc"⟩]⟩]

/-- The split border value of the C4 counterexample. -/
def onEditCexBorder : Border :=
  { top := some { color := some "#abc" }, right := some {},
    bottom := some {}, left := some {} }

/-- C4 counterexample: the literal-match search for the top color yields a
palette entry (whose slug is the empty string), yet no slug is recorded for
the top side and its literal color stays stored, because the code requires a
truthy slug before recording. -/
theorem onEdit_empty_slug_counterexample :
    getColorByProperty onEditCexColors .color "#abc"
        = some ⟨some "", some "#abc"⟩ ∧
      (onBorderChange onEditCexColors none onEditCexBorder).sideBorderColors
        = some {} ∧
      (((onBorderChange onEditCexColors none
            onEditCexBorder).style.bind (fun x => x.border)).bind
          (fun b => b.top)).bind (fun sb => sb.color) = some "#abc" := by
  decide

/-- The origins of the C4 witness. -/
def onEditWitnessColors : List ColorOrigin :=
  [⟨some "theme", [⟨some "primary", some "#111111"⟩]⟩]

/-- The split border value of the C4 witness (the spec's onEdit example). -/
def onEditWitnessBorder : Border :=
  { top := some { color := some "#111111" }, right := some {},
    bottom := some {}, left := some {} }

theorem onEdit_named_extraction_witness :
    (onBorderChange onEditWitnessColors none
        onEditWitnessBorder).sideBorderColors.bind (fun m => m.side .top)
      = some "primary" ∧
    (((onBorderChange onEditWitnessColors none
          onEditWitnessBorder).style.bind (fun x => x.border)).bind
        (fun b => b.top)).bind (fun sb => sb.color) = none := by
  have h := ((onEdit_named_extraction onEditWitnessColors none
      onEditWitnessBorder).1 (by decide) .top).1 ⟨by decide, by decide⟩
  exact ⟨h.1.trans (by decide), h.2⟩

/-- The serialization-compactness invariant of the claim: a style update is
normalized when it is either undefined or carries a non-empty border object
whose side sub-objects, when present, are non-empty as well (an absent key
`none` is how an undefined member is represented, so no member is ever an
undefined value or an empty object, at any depth). -/
def styleNormalized : Option Style → Bool
  | none => true
  | some st =>
    match st.border with
    | none => false
    | some b =>
      !b.isEmptyObj && b.top.all (fun s => !s.isEmptyObj) &&
        b.right.all (fun s => !s.isEmptyObj) &&
        b.bottom.all (fun s => !s.isEmptyObj) &&
        b.left.all (fun s => !s.isEmptyObj)

theorem cleanSideBorder_not_empty (o : Option SideBorder) :
    (cleanSideBorder o).all (fun s => !s.isEmptyObj) = true := by
  cases o with
  | none => rfl
  | some b => by_cases h : b.isEmptyObj = true <;> simp [cleanSideBorder, h]

theorem cleanStyle_normalized (B : Border) :
    styleNormalized (cleanEmptyObjectStyle { border := some B }) = true := by
  by_cases h : (cleanBorderSides B).isEmptyObj = true
  · have hB : cleanEmptyObject B = none := by rw [cleanEmptyObject, if_pos h]
    simp [cleanEmptyObjectStyle, hB, styleNormalized]
  · have hB : cleanEmptyObject B = some (cleanBorderSides B) := by
      rw [cleanEmptyObject, if_neg h]
    have hne : (cleanBorderSides B).isEmptyObj = false := by simpa using h
    simp only [cleanEmptyObjectStyle, hB, styleNormalized]
    simp only [cleanBorderSides] at hne ⊢
    simp [hne, cleanSideBorder_not_empty]

/-- C6: the style update returned by `onBorderChange` is normalized — no
member of it, at any depth, is undefined or an empty object. -/
theorem onEdit_normalized (colors : List ColorOrigin) (st : Option Style)
    (nb : Border) :
    styleNormalized (onBorderChange colors st nb).style = true := by
  by_cases h : hasSplitBorders nb = true
  · simp [onBorderChange, h, cleanStyle_normalized]
  · by_cases hc : truthy nb.color = true
    · by_cases hs : truthy (getMultiOriginColor colors none nb.color).slug = true
      · simp [onBorderChange, h, hc, hs, cleanStyle_normalized]
      · simp [onBorderChange, h, hc, hs, cleanStyle_normalized]
    · simp [onBorderChange, h, hc, cleanStyle_normalized]

/-- What `resetBorder` leaves of the border object, as a function of the
prior radius: the cleaned radius-only object. -/
def resetRadiusBorder : Option String → Option Border
  | some rr => some { radius := some rr }
  | none => none

/-- The border radius stored in a `style` attribute. -/
def storedRadius (st : Option Style) : Option String :=
  (st.bind (fun s => s.border)).bind (fun b => b.radius)

/-- C7: a border radius present in the prior style survives any
`onBorderChange` verbatim, and `resetBorder` clears the named color
attributes and every border member except the radius. -/
theorem radius_preserved_and_reset (colors : List ColorOrigin)
    (st : Option Style) (nb : Border) (a : Attributes) (r : String)
    (hnr : nb.radius = none)
    (hr : (st.bind (fun s => s.border)).bind (fun b => b.radius) = some r) :
    ((onBorderChange colors st nb).style.bind (fun s => s.border)).bind
        (fun b => b.radius) = some r
    ∧ (resetBorder a).borderColor = none
    ∧ (resetBorder a).sideBorderColors = none
    ∧ (resetBorder a).style
      = some { border := resetRadiusBorder (storedRadius a.style) } := by
  refine ⟨?_, rfl, rfl, ?_⟩
  · by_cases h : hasSplitBorders nb = true
    · simp [onBorderChange, h, cleanStyle_border, cleanEmptyObject_radius, hr]
    · by_cases hc : truthy nb.color = true
      · by_cases hs : truthy (getMultiOriginColor colors none nb.color).slug = true
        · simp [onBorderChange, h, hc, hs, cleanStyle_border,
            cleanEmptyObject_radius, hnr, hr]
        · simp [onBorderChange, h, hc, hs, cleanStyle_border,
            cleanEmptyObject_radius, hnr, hr]
      · simp [onBorderChange, h, hc, cleanStyle_border,
          cleanEmptyObject_radius, hnr, hr]
  · cases hpr : storedRadius a.style with
    | none =>
      simp only [storedRadius] at hpr
      simp [resetBorder, hpr, cleanEmptyObject, cleanBorderSides,
        Border.isEmptyObj, cleanSideBorder, resetRadiusBorder, storedRadius]
    | some rr =>
      simp only [storedRadius] at hpr
      simp [resetBorder, hpr, cleanEmptyObject, cleanBorderSides,
        Border.isEmptyObj, cleanSideBorder, resetRadiusBorder, storedRadius]

/-- The prior style of the C7 witness: a stored radius next to a flat
color. -/
def radiusWitnessStyle : Option Style :=
  some { border := some { radius := some "5px", color := some "#abc" } }

theorem radius_preserved_and_reset_witness :
    ((onBorderChange [] radiusWitnessStyle
        { color := some "#abc" }).style.bind (fun s => s.border)).bind
      (fun b => b.radius) = some "5px"
    ∧ (resetBorder { style := radiusWitnessStyle }).style
      = some { border := some { radius := some "5px" } } := by
  have h := radius_preserved_and_reset [] radiusWitnessStyle
    { color := some "#abc" } { style := radiusWitnessStyle } "5px" rfl rfl
  exact ⟨h.1, h.2.2.2.trans (by decide)⟩

/-- C8: every operation of the resolver is a total Lean function by
construction, and absent or falsy (empty) fields degrade to the no-value
result or to pass-through: an absent/empty named color and custom color
resolve to `{ color: undefined }`, hydration without named color attributes
passes the stored border through, and an empty border change leaves only the
prior radius, clearing the named color attributes. -/
theorem operations_total (colors : List ColorOrigin) (st : Option Style) :
    getMultiOriginColor colors none none = ⟨none, none⟩
    ∧ getMultiOriginColor colors (some "") (some "") = ⟨none, none⟩
    ∧ getBorderObject { style := st } colors = st.bind (fun s => s.border)
    ∧ getBorderObject { borderColor := some "", style := st } colors
        = st.bind (fun s => s.border)
    ∧ (onBorderChange colors st {}).borderColor = none
    ∧ (onBorderChange colors st {}).sideBorderColors = none
    ∧ ((onBorderChange colors st {}).style.bind (fun s => s.border)).bind
        (fun b => b.radius)
      = (st.bind (fun s => s.border)).bind (fun b => b.radius)
    ∧ ((onBorderChange colors st {}).style.bind (fun s => s.border)).bind
        (fun b => b.color) = none := by
  refine ⟨rfl, rfl, ?_, ?_, ?_, ?_, ?_, ?_⟩
  · simp [getBorderObject, truthy]
  · simp [getBorderObject, truthy]
  · simp [onBorderChange, hasSplitBorders, truthy]
  · simp [onBorderChange, hasSplitBorders, truthy]
  · simp [onBorderChange, hasSplitBorders, truthy, cleanStyle_border,
      cleanEmptyObject_radius]
  · simp [onBorderChange, hasSplitBorders, truthy, cleanStyle_border,
      cleanEmptyObject_color]

/-- C10: for a split border change the `sideBorderColors` update is always a
defined object — the empty object when no side records a named color — and
`hasBorderValue` then holds on the resulting attributes whatever the other
attributes are, solely because that object is defined. -/
theorem onEdit_split_sideColors_defined (colors : List ColorOrigin)
    (st : Option Style) (nb : Border) (h : hasSplitBorders nb = true) :
    (onBorderChange colors st nb).sideBorderColors.isSome = true
    ∧ ((∀ side : Side,
        truthy ((nb.side side).bind (fun s => s.color)) = false ∨
          truthy (getMultiOriginColor colors none
            ((nb.side side).bind (fun s => s.color))).slug = false) →
      (onBorderChange colors st nb).sideBorderColors = some {})
    ∧ (∀ bc : Option String, ∀ st₂ : Option Style,
      hasBorderValue
          { borderColor := bc,
            sideBorderColors := (onBorderChange colors st nb).sideBorderColors,
            style := st₂ }
        = true) := by
  refine ⟨by simp [onBorderChange, h], fun hnone => ?_, fun bc st₂ => ?_⟩
  · have ht := (processSide_spec colors nb.top).2
      (by simpa [Border.side] using hnone .top)
    have hrt := (processSide_spec colors nb.right).2
      (by simpa [Border.side] using hnone .right)
    have hb := (processSide_spec colors nb.bottom).2
      (by simpa [Border.side] using hnone .bottom)
    have hl := (processSide_spec colors nb.left).2
      (by simpa [Border.side] using hnone .left)
    simp [onBorderChange, h, ht, hrt, hb, hl]
  · simp [onBorderChange, h, hasBorderValue]

/-- The split border value of the C10 witness: only the top key present. -/
def splitWitnessBorder : Border := { top := some {} }

theorem onEdit_split_sideColors_defined_witness :
    (onBorderChange [] none splitWitnessBorder).sideBorderColors.isSome = true
    ∧ (onBorderChange [] none splitWitnessBorder).sideBorderColors = some {}
    ∧ hasBorderValue
        { borderColor := none,
          sideBorderColors :=
            (onBorderChange [] none splitWitnessBorder).sideBorderColors,
          style := none }
      = true := by
  have h := onEdit_split_sideColors_defined [] none splitWitnessBorder
    (by decide)
  exact ⟨h.1, h.2.1 (by intro side; cases side <;> exact Or.inl rfl),
    h.2.2 none none⟩

/-- The token list of the spec's description of the class-name string (§6 of
the spec), written from the spec's words: the fixed token `has-border-color`
when a flat border color facet is active (named slug or stored literal), the
palette token `has-{slug}-border-color` when a flat named slug is set, and
for each side in order the fixed token `has-border-{side}-color` when that
side's facet is active, followed by the palette token
`has-{slug}-border-{side}-color` when that side's named slug is set. -/
def borderClassTokens (a : Attributes) : List String :=
  (if truthy a.borderColor ||
      truthy ((a.style.bind (fun s => s.border)).bind (fun b => b.color))
    then ["has-border-color"] else [])
  ++ (if truthy a.borderColor
    then ["has-" ++ a.borderColor.getD "" ++ "-" ++ "border-color"] else [])
  ++ borderSides.flatMap (fun side =>
    (if truthy (a.sideBorderColors.bind (fun c => c.side side)) ||
        truthy (((a.style.bind (fun s => s.border)).bind
          (fun b => b.side side)).bind (fun sb => sb.color))
      then ["has-" ++ ("border-" ++ side.name ++ "-color")] else [])
    ++ (if truthy (a.sideBorderColors.bind (fun c => c.side side))
      then ["has-" ++ (a.sideBorderColors.bind
          (fun c => c.side side)).getD "" ++ "-"
          ++ ("border-" ++ side.name ++ "-color")]
      else []))

theorem activeTokens_cons (x : String × Bool) (l : List (String × Bool)) :
    activeTokens (x :: l)
      = (if x.2 = true then [x.1] else []) ++ activeTokens l := by
  by_cases h : x.2 = true <;> simp [activeTokens, h]

theorem activeTokens_append (l₁ l₂ : List (String × Bool)) :
    activeTokens (l₁ ++ l₂) = activeTokens l₁ ++ activeTokens l₂ := by
  simp [activeTokens]

/-- The tokens one side contributes, split by the two flags. -/
theorem activeTokens_side (base : String) (slug stored : Option String)
    (hbase : (base == "") = false) :
    activeTokens (("has-" ++ base, truthy slug || truthy stored) ::
        (match getColorClassName base slug with
         | some colorClass => [(colorClass, true)]
         | none => []))
      = (if truthy slug || truthy stored then ["has-" ++ base] else [])
        ++ (if truthy slug
            then ["has-" ++ slug.getD "" ++ "-" ++ base] else []) := by
  rw [activeTokens_cons]
  by_cases h : truthy slug = true
  · simp [getColorClassName, hbase, h, activeTokens]
  · simp [getColorClassName, hbase, h, activeTokens]

/-- C9 (amended: the fixed tokens are emitted whenever the facet carries a
named slug OR a stored literal color, while the palette tokens require the
named slug): `getBorderClasses` produces exactly the space-joined
concatenation of the spec's tokens. -/
theorem getBorderClasses_spec (a : Attributes) :
    getBorderClasses a = String.intercalate " " (borderClassTokens a) := by
  have hflat : activeTokens
      (match getColorClassName "border-color" a.borderColor with
       | some c => [(c, true)]
       | none => [])
      = (if truthy a.borderColor
          then ["has-" ++ a.borderColor.getD "" ++ "-" ++ "border-color"]
          else []) := by
    by_cases h : truthy a.borderColor = true
    · simp [getColorClassName, h, activeTokens]
    · simp [getColorClassName, h, activeTokens]
  have hsides : activeTokens (getSideBorderClasses a)
      = borderSides.flatMap (fun side =>
        (if truthy (a.sideBorderColors.bind (fun c => c.side side)) ||
            truthy (((a.style.bind (fun s => s.border)).bind
              (fun b => b.side side)).bind (fun sb => sb.color))
          then ["has-" ++ ("border-" ++ side.name ++ "-color")] else [])
        ++ (if truthy (a.sideBorderColors.bind (fun c => c.side side))
          then ["has-" ++ (a.sideBorderColors.bind
              (fun c => c.side side)).getD "" ++ "-"
              ++ ("border-" ++ side.name ++ "-color")]
          else [])) := by
    simp only [getSideBorderClasses, borderSides, List.flatMap_cons,
      List.flatMap_nil, List.append_nil, Side.name]
    rw [activeTokens_append, activeTokens_append, activeTokens_append,
      activeTokens_side _ _ _ (by decide), activeTokens_side _ _ _ (by decide),
      activeTokens_side _ _ _ (by decide), activeTokens_side _ _ _ (by decide)]
  simp only [getBorderClasses, classnames]
  congr 1
  rw [activeTokens_append, activeTokens_cons, List.append_assoc, hflat,
    hsides, borderClassTokens]
  simp

/-- The attributes of the C9 counterexample: a stored literal flat color and
no named slug anywhere. -/
def classesCexAttributes : Attributes :=
  { style := some { border := some { color := some "#abc" } } }

/-- C9 counterexample: no named slug is active for any facet, yet the class
string contains the fixed token `has-border-color`, which the code also flags
for a stored literal flat color. -/
theorem getBorderClasses_literal_counterexample :
    classesCexAttributes.borderColor = none ∧
      classesCexAttributes.sideBorderColors = none ∧
      getBorderClasses classesCexAttributes = "has-border-color" := by
  decide

theorem truthy_iff (o : Option String) :
    truthy o = true ↔ ∃ c, o = some c ∧ c ≠ "" := by
  cases o <;> simp [truthy]

/-- When the colors agree slug-wise, looking back up the slug of an entry
found by literal color yields its (identical) color. -/
theorem slug_roundtrip (colors : List ColorOrigin)
    (hsd : slugDeterminesColor colors) (c : String) (e : ColorEntry)
    (hfind : getColorByProperty colors .color c = some e)
    (g : String) (hg : e.slug = some g) (hgne : g ≠ "") :
    (getMultiOriginColor colors (some g) none).color = e.color := by
  have hmem : e ∈ allColors colors := by
    rw [getColorByProperty_eq_find] at hfind
    exact List.mem_of_find?_eq_some hfind
  have hex : ((allColors colors).find? (fun x => x.get .slug == some g)).isSome := by
    rw [List.find?_isSome]
    exact ⟨e, hmem, by simp [ColorEntry.get, hg]⟩
  obtain ⟨e₂, he₂⟩ := Option.isSome_iff_exists.mp hex
  have he₂mem : e₂ ∈ allColors colors := List.mem_of_find?_eq_some he₂
  have he₂slug : e₂.slug = some g := by
    have := List.find?_some he₂
    simpa [ColorEntry.get, beq_iff_eq] using this
  have hcol : e₂.color = e.color := hsd e₂ he₂mem e hmem g he₂slug hg
  have hlook : getColorByProperty colors .slug g = some e₂ := by
    rw [getColorByProperty_eq_find]
    exact he₂
  simp [getMultiOriginColor, namedLookup, hgne, hlook, hcol]

/-- The literal-match search, when it produces an entry with a truthy slug,
produced it through `getColorByProperty` by color. -/
theorem custom_found_entry (colors : List ColorOrigin) (c : String)
    (hcne : c ≠ "")
    (hs : truthy (getMultiOriginColor colors none (some c)).slug = true) :
    getColorByProperty colors .color c
      = some (getMultiOriginColor colors none (some c)) := by
  cases hfind : getColorByProperty colors .color c with
  | none =>
    have : getMultiOriginColor colors none (some c) = ⟨none, some c⟩ := by
      simp [getMultiOriginColor, namedLookup, truthy, hcne, hfind]
    rw [this] at hs
    simp [truthy] at hs
  | some e =>
    have : getMultiOriginColor colors none (some c) = e := by
      simp [getMultiOriginColor, namedLookup, truthy, hcne, hfind]
    rw [this]

/-- Round trip of one side through the `onBorderChange` loop and rehydration:
its rendered color is unchanged. -/
theorem side_roundtrip (colors : List ColorOrigin)
    (hsd : slugDeterminesColor colors) (sb : Option SideBorder) :
    (hydrateSide colors (cleanSideBorder (processSide colors sb).1)
        (processSide colors sb).2).bind (fun s => s.color)
      = sb.bind (fun s => s.color) := by
  by_cases hc : truthy (sb.bind (fun s => s.color)) = true
  · by_cases hs : truthy (getMultiOriginColor colors none
        (sb.bind (fun s => s.color))).slug = true
    · obtain ⟨c, hcc, hcne⟩ := (truthy_iff _).mp hc
      rw [(processSide_spec colors sb).1 hc hs]
      rw [hcc] at hs
      obtain ⟨g, hg, hgne⟩ := (truthy_iff _).mp hs
      have hfind := custom_found_entry colors c hcne
        (by rw [hg]; simpa [truthy] using hgne)
      have hcolor : (getMultiOriginColor colors none (some c)).color = some c := by
        have := List.find?_some (by
          rw [getColorByProperty_eq_find] at hfind
          exact hfind)
        simpa [ColorEntry.get, beq_iff_eq] using this
      have hback := slug_roundtrip colors hsd c
        (getMultiOriginColor colors none (some c)) hfind g hg hgne
      rw [hcolor] at hback
      rw [hcc, hg]
      simp only [hydrateSide]
      rw [hback]
      simp [truthy, hcne]
    · rw [(processSide_spec colors sb).2 (Or.inr (by simpa using hs))]
      simp [hydrateSide, cleanSideBorder_bind_color, getD_empty_sb_color]
  · rw [(processSide_spec colors sb).2 (Or.inl (by simpa using hc))]
    simp [hydrateSide, cleanSideBorder_bind_color, getD_empty_sb_color]

theorem getD_empty_top (o : Option Border) :
    (o.getD {}).top = o.bind (fun b => b.top) := by
  cases o <;> rfl

theorem getD_empty_right (o : Option Border) :
    (o.getD {}).right = o.bind (fun b => b.right) := by
  cases o <;> rfl

theorem getD_empty_bottom (o : Option Border) :
    (o.getD {}).bottom = o.bind (fun b => b.bottom) := by
  cases o <;> rfl

theorem getD_empty_left (o : Option Border) :
    (o.getD {}).left = o.bind (fun b => b.left) := by
  cases o <;> rfl

/-- Hydration of attributes that carry no (truthy) flat named color but do
carry a side-color map. -/
theorem getBorderObject_sbc (colors : List ColorOrigin) (M : SideColors)
    (st' : Option Style) :
    getBorderObject
        { borderColor := none, sideBorderColors := some M, style := st' }
        colors
      = some
          { ((st'.bind (fun s => s.border)).getD {}) with
            top := hydrateSide colors
              ((st'.bind (fun s => s.border)).getD {}).top M.top,
            right := hydrateSide colors
              ((st'.bind (fun s => s.border)).getD {}).right M.right,
            bottom := hydrateSide colors
              ((st'.bind (fun s => s.border)).getD {}).bottom M.bottom,
            left := hydrateSide colors
              ((st'.bind (fun s => s.border)).getD {}).left M.left } := by
  simp [getBorderObject, truthy]

/-- The border-styles object the split branch of `onBorderChange` builds:
prior radius plus the processed four sides. -/
def splitBorderStyles (colors : List ColorOrigin) (st : Option Style)
    (nb : Border) : Border :=
  { radius := (st.bind (fun s => s.border)).bind (fun b => b.radius),
    top := (processSide colors nb.top).1,
    right := (processSide colors nb.right).1,
    bottom := (processSide colors nb.bottom).1,
    left := (processSide colors nb.left).1 }

/-- The side-color map the split branch of `onBorderChange` builds. -/
def splitSideColors (colors : List ColorOrigin) (nb : Border) : SideColors :=
  { top := (processSide colors nb.top).2,
    right := (processSide colors nb.right).2,
    bottom := (processSide colors nb.bottom).2,
    left := (processSide colors nb.left).2 }

/-- The radius the flat branch of `onBorderChange` stores: the incoming
border value's radius key when present, else the prior radius. -/
def flatMergedRadius (st : Option Style) (nb : Border) : Option String :=
  match nb.radius with
  | some r => some r
  | none => (st.bind (fun s => s.border)).bind (fun b => b.radius)

/-- The border object the flat branch stores when a named color was
extracted: the literal color blanked, the radius merged. -/
def flatCleared (st : Option Style) (nb : Border) : Border :=
  { nb with color := none, radius := flatMergedRadius st nb }

/-- The border object the flat branch stores when no named color was
extracted: only the radius merged. -/
def flatKept (st : Option Style) (nb : Border) : Border :=
  { nb with radius := flatMergedRadius st nb }

/-- Taking the attribute updates of a border change as the new attributes. -/
def rehydrateAttributes (r : BorderChangeResult) : Attributes :=
  { borderColor := r.borderColor, sideBorderColors := r.sideBorderColors,
    style := r.style }

/-- Hydration of attributes whose flat named color is truthy and resolves to
a truthy literal color: the stored border with the resolved color overlaid. -/
theorem getBorderObject_flat_named (colors : List ColorOrigin)
    (bc : Option String) (sbc : Option SideColors) (st' : Option Style)
    (hbc : truthy bc = true)
    (hcol : truthy (getMultiOriginColor colors bc none).color = true) :
    getBorderObject
        { borderColor := bc, sideBorderColors := sbc, style := st' } colors
      = some
          { ((st'.bind (fun s => s.border)).getD {}) with
            color := (getMultiOriginColor colors bc none).color } := by
  simp [getBorderObject, hbc, hcol]

/-- The round trip at the heart of C5, factored over the border value the
editor control hands back: rehydrating the attribute updates produced by
`onBorderChange` reproduces the rendered colors of its input. -/
theorem roundtrip_core (colors : List ColorOrigin) (st : Option Style)
    (nb : Border) (hsd : slugDeterminesColor colors)
    (hpure : hasSplitBorders nb = false ∨ nb.color = none) :
    effectiveColors (getBorderObject
        (rehydrateAttributes (onBorderChange colors st nb)) colors)
      = effectiveColors (some nb) := by
  by_cases hsplit : hasSplitBorders nb = true
  · have hflat : nb.color = none := by
      rcases hpure with h | h
      · rw [hsplit] at h
        cases h
      · exact h
    have hoc : onBorderChange colors st nb
        = { style := cleanEmptyObjectStyle
              { border := some (splitBorderStyles colors st nb) },
            borderColor := none,
            sideBorderColors := some (splitSideColors colors nb) } := by
      simp [onBorderChange, hsplit, splitBorderStyles, splitSideColors]
    rw [hoc]
    simp only [rehydrateAttributes]
    rw [getBorderObject_sbc]
    rw [cleanStyle_border]
    simp only [effectiveColors, Option.some_bind]
    rw [getD_empty_color, getD_empty_top, getD_empty_right, getD_empty_bottom,
      getD_empty_left]
    rw [cleanEmptyObject_color, cleanEmptyObject_top, cleanEmptyObject_right,
      cleanEmptyObject_bottom, cleanEmptyObject_left]
    simp only [splitBorderStyles, splitSideColors]
    rw [side_roundtrip colors hsd nb.top, side_roundtrip colors hsd nb.right,
      side_roundtrip colors hsd nb.bottom, side_roundtrip colors hsd nb.left]
    simp [hflat]
  · have hsides : nb.top = none ∧ nb.right = none ∧ nb.bottom = none ∧
        nb.left = none := by
      cases htop : nb.top <;> cases hright : nb.right <;>
        cases hbottom : nb.bottom <;> cases hleft : nb.left <;>
        simp_all [hasSplitBorders]
    obtain ⟨ht, hr, hb, hl⟩ := hsides
    by_cases hc : truthy nb.color = true
    · by_cases hs : truthy (getMultiOriginColor colors none nb.color).slug = true
      · obtain ⟨c, hcc, hcne⟩ := (truthy_iff _).mp hc
        have hs2 : truthy (getMultiOriginColor colors none (some c)).slug
            = true := by rw [← hcc]; exact hs
        obtain ⟨g, hg, hgne⟩ := (truthy_iff _).mp hs2
        have hfind := custom_found_entry colors c hcne hs2
        have hcolor : (getMultiOriginColor colors none (some c)).color
            = some c := by
          have := List.find?_some (by
            rw [getColorByProperty_eq_find] at hfind
            exact hfind)
          simpa [ColorEntry.get, beq_iff_eq] using this
        have hback := slug_roundtrip colors hsd c
          (getMultiOriginColor colors none (some c)) hfind g hg hgne
        rw [hcolor] at hback
        have hoc : onBorderChange colors st nb
            = { style := cleanEmptyObjectStyle
                  { border := some (flatCleared st nb) },
                borderColor := some g, sideBorderColors := none } := by
          have hslug : (getMultiOriginColor colors none nb.color).slug
              = some g := by
            rw [hcc]
            exact hg
          have htg : truthy (some g) = true := by simpa [truthy] using hgne
          simp [onBorderChange, hsplit, hc, hs, flatCleared, flatMergedRadius,
            hslug, htg]
        rw [hoc]
        simp only [rehydrateAttributes]
        have happ2 := getBorderObject_flat_named colors (some g) none
          (cleanEmptyObjectStyle { border := some (flatCleared st nb) })
          (by simpa [truthy] using hgne)
          (by rw [hback]; simpa [truthy] using hcne)
        rw [happ2]
        simp only [effectiveColors, Option.some_bind]
        rw [hback]
        rw [cleanStyle_border]
        rw [getD_empty_top, getD_empty_right, getD_empty_bottom,
          getD_empty_left]
        rw [cleanEmptyObject_top, cleanEmptyObject_right,
          cleanEmptyObject_bottom, cleanEmptyObject_left]
        simp [flatCleared, ht, hr, hb, hl, cleanSideBorder, hcc]
      · have hoc : onBorderChange colors st nb
            = { style := cleanEmptyObjectStyle
                  { border := some (flatKept st nb) },
                borderColor := none, sideBorderColors := none } := by
          simp [onBorderChange, hsplit, hc, hs, flatKept, flatMergedRadius]
        rw [hoc]
        simp only [rehydrateAttributes]
        have hget : getBorderObject
            { borderColor := none, sideBorderColors := none,
              style := cleanEmptyObjectStyle
                { border := some (flatKept st nb) } }
            colors
            = (cleanEmptyObjectStyle
                { border := some (flatKept st nb) }).bind
                (fun s => s.border) := by
          simp [getBorderObject, truthy]
        rw [hget, cleanStyle_border]
        simp only [effectiveColors, Option.some_bind]
        rw [cleanEmptyObject_color, cleanEmptyObject_top, cleanEmptyObject_right,
          cleanEmptyObject_bottom, cleanEmptyObject_left]
        simp [flatKept, ht, hr, hb, hl, cleanSideBorder]
    · have hoc : onBorderChange colors st nb
          = { style := cleanEmptyObjectStyle
                { border := some (flatKept st nb) },
              borderColor := none, sideBorderColors := none } := by
        simp [onBorderChange, hsplit, hc, flatKept, flatMergedRadius]
      rw [hoc]
      simp only [rehydrateAttributes]
      have hget : getBorderObject
          { borderColor := none, sideBorderColors := none,
            style := cleanEmptyObjectStyle
              { border := some (flatKept st nb) } }
          colors
          = (cleanEmptyObjectStyle
              { border := some (flatKept st nb) }).bind
              (fun s => s.border) := by
        simp [getBorderObject, truthy]
      rw [hget, cleanStyle_border]
      simp only [effectiveColors, Option.some_bind]
      rw [cleanEmptyObject_color, cleanEmptyObject_top, cleanEmptyObject_right,
        cleanEmptyObject_bottom, cleanEmptyObject_left]
      simp [flatKept, ht, hr, hb, hl, cleanSideBorder]

theorem effectiveColors_getD (o : Option Border) :
    effectiveColors (some (o.getD {})) = effectiveColors o := by
  cases o <;> simp [effectiveColors]

/-- The origins of the C5 counterexample: the slug `a` appears in two origins
with two different colors. -/
def roundTripCexColors : List ColorOrigin :=
  [⟨some "default", [⟨some "a", some "#1"⟩]⟩,
    ⟨some "theme", [⟨some "a", some "#2"⟩]⟩]

/-- The attributes of the C5 counterexample: a stored literal flat color that
matches the second origin's entry. -/
def roundTripCexAttributes : Attributes :=
  { style := some { border := some { color := some "#2" } } }

/-- C5 counterexample: hydrating, feeding the hydrated border through
`onBorderChange`, taking the updates as new attributes and hydrating again
changes the rendered flat color from `#2` to `#1` — the edit records the
slug of the theme entry matched by color, but rehydration resolves that slug
to the default origin's entry, which has a different color. -/
theorem roundtrip_counterexample :
    effectiveColors (roundTrip roundTripCexColors roundTripCexAttributes)
      ≠ effectiveColors
          (getBorderObject roundTripCexAttributes roundTripCexColors) := by
  decide

/-- C5 (amended with what the counterexample forces: any two palette entries
sharing a slug must agree on their color, and the hydrated border must be
purely flat or purely split — its flat color is absent whenever it carries a
side entry): the round trip through a user edit reproduces the effective
color values of the first hydrate. -/
theorem hydrate_onEdit_roundtrip (colors : List ColorOrigin) (a : Attributes)
    (hsd : slugDeterminesColor colors)
    (hpure : hasSplitBorders ((getBorderObject a colors).getD {}) = false ∨
      ((getBorderObject a colors).getD {}).color = none) :
    effectiveColors (roundTrip colors a)
      = effectiveColors (getBorderObject a colors) := by
  have h := roundtrip_core colors a.style ((getBorderObject a colors).getD {})
    hsd hpure
  calc effectiveColors (roundTrip colors a)
      = effectiveColors (getBorderObject
          (rehydrateAttributes (onBorderChange colors a.style
            ((getBorderObject a colors).getD {}))) colors) := rfl
    _ = effectiveColors (some ((getBorderObject a colors).getD {})) := h
    _ = effectiveColors (getBorderObject a colors) := effectiveColors_getD _

/-- The origins of the C5 witness. -/
def roundTripWitnessColors : List ColorOrigin :=
  [⟨some "theme", [⟨some "primary", some "#111111"⟩]⟩]

/-- The attributes of the C5 witness: a flat named border color over a
stored width. -/
def roundTripWitnessAttributes : Attributes :=
  { borderColor := some "primary",
    style := some { border := some { width := some "2px" } } }

theorem hydrate_onEdit_roundtrip_witness :
    effectiveColors (roundTrip roundTripWitnessColors roundTripWitnessAttributes)
      = effectiveColors
          (getBorderObject roundTripWitnessAttributes roundTripWitnessColors) := by
  apply hydrate_onEdit_roundtrip
  · intro e₁ h₁ e₂ h₂ s hs₁ hs₂
    simp only [roundTripWitnessColors, allColors, List.flatMap_cons,
      List.flatMap_nil, List.append_nil, List.mem_cons,
      List.not_mem_nil, or_false] at h₁ h₂
    rw [h₁, h₂]
  · left
    decide

end Gutenberg
